import Mathlib

-- Verification of the supercat revision-tracked comment store.
-- The definitions below are a shallow embedding of the server-side database
-- module (bundled after the component code in User.vue) and of the snapshot
-- differ compareRecords (Logs.vue).  SQL tables are lists of row structures,
-- statements are pure state transformers, and statement failures are driven
-- by an explicit oracle : Nat -> Bool (true = the n-th issued statement
-- succeeds); transactional rollback is embedded by returning the pre-BEGIN
-- state on every failure path, which is exactly what a serial single
-- connection running BEGIN/COMMIT/ROLLBACK does.

namespace Supercat

-- ------------------------------------------------------------------
-- Snapshot differ (Logs.vue, compareRecords)
-- ------------------------------------------------------------------

-- A comment snapshot as it appears in a log entry (data0 / data1).
-- Scalar JS values that may be `undefined` are Option; the rich-text
-- `entry` JSON object is modelled as an association list from scheme keys
-- to the serialised sub-value (JSON.stringify comparison = equality of the
-- serialised strings).
structure LogComment where
  title : Option String
  priority : Option Int
  published : Option Bool
  tags : List Int
  issues : List (List Int)
  entry : List (String × String)
deriving DecidableEq

-- data0.entry?.[k] — undefined when the key is absent.
def entryLookup (e : List (String × String)) (k : String) : Option String :=
  (e.find? (fun q => q.1 = k)).map (fun q => q.2)

-- `!data0?.title` — falsy when the title field is missing or the empty string.
def jsTruthyTitle : Option String → Bool
  | none => false
  | some s => s ≠ ""

-- Line 155 of Logs.vue:
-- `data0.tags.length !== new Set(data0.tags.concat(data1.tags)).size`.
def tagsChanged (d0 d1 : LogComment) : Bool :=
  d0.tags.length ≠ ((d0.tags ++ d1.tags).dedup).length

inductive DiffResult where
  | created
  | fields (l : List (String × String))
deriving DecidableEq

-- compareRecords(id, data0, data1) from Logs.vue: the returned buttons are
-- modelled as the list of (field key, display label) pairs, in push order;
-- the CREATED marker is its own constructor.  `scheme` is the module-level
-- scheme mapping, as a (key, title) list in definition order.
def compareRecords (scheme : List (String × String)) (d0 d1 : LogComment) :
    DiffResult :=
  if jsTruthyTitle d0.title = false then .created
  else
    .fields
      ((if d0.title ≠ d1.title then [("title", "Title")] else []) ++
       (if d0.priority ≠ d1.priority then [("priority", "Priority")] else []) ++
       (if d0.published ≠ d1.published then [("published", "Status")] else []) ++
       (if tagsChanged d0 d1 then [("tags", "Tags")] else []) ++
       (if d0.issues ≠ d1.issues then [("issues", "Issues")] else []) ++
       scheme.filter
         (fun q => entryLookup d0.entry q.1 ≠ entryLookup d1.entry q.1))

-- ------------------------------------------------------------------
-- Database model (tables from the schema in User.vue's server module)
-- ------------------------------------------------------------------

-- A JSON snapshot as written into logs.data0/data1 by setComment:
-- cleanCommentObject(obj) = obj minus its id field.  Fields absent from the
-- source object (JS undefined / SQL NULL) are none.  The rich-text entry is
-- kept opaque as its serialised form.
structure Snapshot where
  text_id : Option Int
  title : Option String
  published : Option Bool
  priority : Option Int
  tags : Option (List Int)
  issues : Option (List (List Int))
  entry : Option String
deriving DecidableEq

def Snapshot.empty : Snapshot := ⟨none, none, none, none, none, none, none⟩

-- comments(id, text_id, title, published, priority, tags, issues, entry);
-- published and priority lack NOT NULL in the schema, hence Option.
structure CommentRow where
  id : Int
  text_id : Option Int
  title : String
  published : Option Bool
  priority : Option Int
  tags : List Int
  issues : List (List Int)
  entry : Option String
deriving DecidableEq

def CommentRow.snapshot (r : CommentRow) : Snapshot :=
  ⟨r.text_id, some r.title, r.published, r.priority, some r.tags,
    some r.issues, r.entry⟩

-- logs(id, created, user_id, table_name, record_id, data0, data1)
structure LogRow where
  id : Int
  created : Nat
  user_id : Int
  table_name : String
  record_id : Int
  data0 : Snapshot
  data1 : Snapshot
deriving DecidableEq

-- tokens(id, token, lang, meta) with UNIQUE (token, lang)
structure TokenRow where
  id : Int
  token : String
  lang : String
  meta : Option String
deriving DecidableEq

-- strings(id, text_id, p, s, form, repr, token_id, comments); the unused
-- line/fmt/unit_id columns are omitted (never touched by the claims' code,
-- always left at their defaults by the ingestion insert).
structure StringRow where
  id : Int
  text_id : Int
  p : Int
  s : Int
  form : String
  repr : String
  token_id : Option Int
  comments : List Int
deriving DecidableEq

-- users(id, privs, activated) — the columns the claimed operations read.
structure UserRow where
  id : Int
  privs : Int
  activated : Bool
deriving DecidableEq

-- The whole store, plus the serial sequences and a logical clock supplying
-- the created timestamp of new log rows.
structure DB where
  comments : List CommentRow
  logs : List LogRow
  tokens : List TokenRow
  strings : List StringRow
  users : List UserRow
  nextCommentId : Int
  nextLogId : Int
  nextTokenId : Int
  nextStringId : Int
  clock : Nat
deriving DecidableEq

def DB.empty : DB := ⟨[], [], [], [], [], 1, 1, 1, 1, 0⟩

-- ------------------------------------------------------------------
-- setComment (User.vue server module, lines 876-931)
-- ------------------------------------------------------------------

-- The params object received by setComment.  JS-absent fields are none;
-- params.text_id is the raw value before Number(): none models a missing or
-- non-numeric value, which Number() turns into NaN — a value every INSERT
-- or UPDATE into the integer column rejects.
structure CommentParams where
  id : Option Int
  text_id : Option Int
  title : Option String
  published : Option Bool
  priority : Option Int
  tags : Option (List Int)
  issues : Option (List (List Int))
  entry : Option String
deriving DecidableEq

-- cleanCommentObject(params): everything but the id, verbatim (no trim).
def CommentParams.snapshot (p : CommentParams) : Snapshot :=
  ⟨p.text_id, p.title, p.published, p.priority, p.tags, p.issues, p.entry⟩

-- JS truthiness of params.id (`if (params.id)`): 0 and undefined are falsy.
def jsId : Option Int → Option Int
  | some i => if i = 0 then none else some i
  | none => none

-- The row written by the INSERT or UPDATE: every column is set from the
-- values array [textId, params.title.trim(), params.published, params.entry,
-- params.priority, tagsAsArray, issuesAsArray]; absent tags/issues become
-- the empty array literal.
def rowFromParams (id : Int) (p : CommentParams) (t : String) : CommentRow :=
  ⟨id, p.text_id, t.trim, p.published, p.priority, p.tags.getD [],
    p.issues.getD [], p.entry⟩

inductive SetCommentOutcome where
  | thrown
  | emptyObj
  | errorObj
  | ok (id : Int) (change : Int)
deriving DecidableEq

structure SetCommentResult where
  outcome : SetCommentOutcome
  db : DB
  txnOpened : Bool
deriving DecidableEq

-- setComment, statement by statement.  oracle n = false makes the n-th
-- issued SQL statement of this call fail (constraint violation or
-- connection error).  The write statement additionally fails outright when
-- textId is NaN (params.text_id = none).  Failure routing follows the
-- source's three nested try/catch blocks:
--  * params.title missing: params.title.trim() throws before any statement;
--  * the pre-transaction SELECT failing, or returning no row (so that
--    cleanCommentObject(undefined) throws), hits the outer catch, which
--    swallows the error and returns the initial {};
--  * a failure of BEGIN hits the middle catch: { error }, no transaction;
--  * a failure after BEGIN triggers ROLLBACK and returns { error } — the
--    committed state stays the pre-BEGIN one (a failing ROLLBACK changes
--    nothing observable: the middle catch returns { error } as well).
def setComment (db : DB) (userId : Int) (p : CommentParams)
    (oracle : Nat → Bool) : SetCommentResult :=
  match p.title with
  | none => ⟨.thrown, db, false⟩
  | some t =>
    match jsId p.id with
    | some i =>
      if oracle 0 = false then ⟨.emptyObj, db, false⟩
      else
        match db.comments.find? (fun r => r.id = i) with
        | none => ⟨.emptyObj, db, false⟩
        | some prev =>
          if oracle 1 = false then ⟨.errorObj, db, false⟩
          else if oracle 2 = false ∨ p.text_id = none then
            ⟨.errorObj, db, true⟩
          else if oracle 3 = false then ⟨.errorObj, db, true⟩
          else if oracle 4 = false then ⟨.errorObj, db, true⟩
          else
            ⟨.ok i db.nextLogId,
              { db with
                comments := db.comments.map
                  (fun r => if r.id = i then rowFromParams i p t else r),
                logs := db.logs ++
                  [⟨db.nextLogId, db.clock, userId, "comments", i,
                    prev.snapshot, p.snapshot⟩],
                nextLogId := db.nextLogId + 1 },
              true⟩
    | none =>
      if oracle 0 = false then ⟨.errorObj, db, false⟩
      else if oracle 1 = false ∨ p.text_id = none then ⟨.errorObj, db, true⟩
      else if oracle 2 = false then ⟨.errorObj, db, true⟩
      else if oracle 3 = false then ⟨.errorObj, db, true⟩
      else
        ⟨.ok db.nextCommentId db.nextLogId,
          { db with
            comments := db.comments ++
              [rowFromParams db.nextCommentId p t],
            logs := db.logs ++
              [⟨db.nextLogId, db.clock, userId, "comments",
                db.nextCommentId, Snapshot.empty, p.snapshot⟩],
            nextCommentId := db.nextCommentId + 1,
            nextLogId := db.nextLogId + 1 },
          true⟩

-- The paired comment write of a successful call: the comments table of db'
-- is db's with exactly the row cid freshly written from params (inserted,
-- or updated in place), and before is the matching prior snapshot.
def commentWritten (db db' : DB) (cid : Int) (before : Snapshot)
    (p : CommentParams) : Prop :=
  ∃ t, p.title = some t ∧
    ((cid = db.nextCommentId ∧ before = Snapshot.empty ∧
        db'.comments = db.comments ++ [rowFromParams cid p t]) ∨
     (∃ prev, prev ∈ db.comments ∧ prev.id = cid ∧ before = prev.snapshot ∧
        db'.comments = db.comments.map
          (fun r => if r.id = cid then rowFromParams cid p t else r)))

-- ------------------------------------------------------------------
-- getStats completion counts (User.vue server module, line 1608)
-- ------------------------------------------------------------------

-- The completion-counts query of getStats:
-- count(*) as total,
-- count(*) FILTER (where published = True) as ready,
-- count(*) FILTER (where published != True) as draft.
-- SQL three-valued logic: a row with published NULL satisfies neither
-- published = True nor published != True, so it is counted only in total.
def completionCounts (db : DB) (t : Int) : Nat × Nat × Nat :=
  let rows := db.comments.filter (fun r => r.text_id = some t)
  (rows.length,
   (rows.filter (fun r => r.published = some true)).length,
   (rows.filter (fun r => r.published = some false)).length)

-- ------------------------------------------------------------------
-- insertBatchIntoStrings (User.vue server module, lines 1356-1396)
-- ------------------------------------------------------------------

-- One record of the tokenized stream: { p, s, form, repr, meta }.
structure BatchItem where
  p : Int
  s : Int
  form : String
  repr : String
  meta : Option String
deriving DecidableEq

-- INSERT INTO tokens (token, lang, meta) VALUES (item.repr, langId,
-- item.meta) ON CONFLICT (token, lang) DO NOTHING.
def tokenInsert (db : DB) (it : BatchItem) (langId : String) : DB :=
  if db.tokens.any (fun tk => tk.token = it.repr ∧ tk.lang = langId) then db
  else
    { db with
      tokens := db.tokens ++ [⟨db.nextTokenId, it.repr, langId, it.meta⟩],
      nextTokenId := db.nextTokenId + 1 }

-- INSERT INTO strings (text_id, p, s, form, repr) VALUES (...); token_id
-- and the comments array stay at their defaults.
def stringInsert (db : DB) (textId : Int) (it : BatchItem) : DB :=
  { db with
    strings := db.strings ++
      [⟨db.nextStringId, textId, it.p, it.s, it.form, it.repr, none, []⟩],
    nextStringId := db.nextStringId + 1 }

-- UPDATE strings SET token_id = tokens.id FROM tokens
-- WHERE tokens.lang = langId AND tokens.token = strings.repr.
def backfill (db : DB) (langId : String) : DB :=
  { db with
    strings := db.strings.map (fun sr =>
      match db.tokens.find?
          (fun tk => tk.lang = langId ∧ tk.token = sr.repr) with
      | some tk => { sr with token_id := some tk.id }
      | none => sr) }

-- The per-item loop, issuing the token upsert then the string insert for
-- each record; k is the index of the next statement for the oracle.
def runBatch (db : DB) (textId : Int) (batch : List BatchItem)
    (langId : String) (oracle : Nat → Bool) (k : Nat) :
    Option (DB × Nat) :=
  match batch with
  | [] => some (db, k)
  | it :: rest =>
    if oracle k = false then none
    else
      if oracle (k + 1) = false then none
      else
        runBatch (stringInsert (tokenInsert db it langId) textId it)
          textId rest langId oracle (k + 2)

-- The state reached when every statement of the loop succeeds.
def ingestAll (db : DB) (textId : Int) (batch : List BatchItem)
    (langId : String) : DB :=
  batch.foldl (fun d it => stringInsert (tokenInsert d it langId) textId it)
    db

-- insertBatchIntoStrings: one dedicated connection, BEGIN, the loop, the
-- backfill UPDATE, COMMIT; any failure lands in the catch, which issues
-- ROLLBACK (restoring the pre-BEGIN state) and makes the function return
-- undefined (none) instead of the elapsed-seconds value.
def insertBatchIntoStrings (db : DB) (textId : Int)
    (batch : List BatchItem) (langId : String) (oracle : Nat → Bool)
    (secs : Nat) : Option Nat × DB :=
  if oracle 0 = false then (none, db)
  else
    match runBatch db textId batch langId oracle 1 with
    | none => (none, db)
    | some (db1, k) =>
      if oracle k = false then (none, db)
      else
        if oracle (k + 1) = false then (none, db)
        else (some secs, backfill db1 langId)

-- ------------------------------------------------------------------
-- getLogs (User.vue server module, lines 1553-1570)
-- ------------------------------------------------------------------

structure LogParams where
  offset : Option Nat
  limit : Option Nat
  id : Option Int
  comment : Option Int
deriving DecidableEq

-- JS `x || d` over numbers: undefined, NaN and 0 fall back to the default.
def jsOrNat (o : Option Nat) (d : Nat) : Nat :=
  match o with
  | some v => if v = 0 then d else v
  | none => d

def jsOrInt (o : Option Int) (d : Int) : Int :=
  match o with
  | some v => if v = 0 then d else v
  | none => d

-- WHERE [record_id = commentId AND]
--   (data0->>'text_id' = $id::text OR data1->>'text_id' = $id::text):
-- a NULL snapshot field (creation data0 = {}) matches nothing.
def logMatches (t : Int) (cid : Option Int) (l : LogRow) : Bool :=
  (match cid with
   | some c => l.record_id = c
   | none => true) &&
  (l.data0.text_id = some t || l.data1.text_id = some t)

-- ORDER BY logs.created DESC, logs.id DESC, as the boolean total preorder
-- handed to the sort.
def logDescLe (a b : LogRow) : Bool :=
  b.created < a.created || (a.created = b.created && b.id ≤ a.id)

-- The strict version of that order: what "strictly descending by creation
-- time, ties broken by descending id" means between two returned rows.
def logAfter (a b : LogRow) : Prop :=
  b.created < a.created ∨ (a.created = b.created ∧ b.id < a.id)

-- getLogs: the data query (filter, sort, OFFSET $1 LIMIT $2) and the count
-- query under the same WHERE clause.  The LEFT JOIN against comments only
-- decorates each row with a `present` flag and cannot change cardinality
-- (comments.id is the primary key), so rows are returned as LogRow.
def getLogs (db : DB) (ps : LogParams) : List LogRow × Nat :=
  let off := jsOrNat ps.offset 0
  let lim := jsOrNat ps.limit 50
  let t := jsOrInt ps.id 1
  let cid := match ps.comment with
    | some c => if c = 0 then none else some c
    | none => none
  let matched := db.logs.filter (logMatches t cid)
  (((matched.mergeSort logDescLe).drop off).take lim, matched.length)

-- ------------------------------------------------------------------
-- changeActivationStatus (User.vue server module, lines 1064-1077) and
-- the client-side guard (User.vue template, lines 18-27)
-- ------------------------------------------------------------------

-- The server operation: its only guards are a truthy target id and the
-- actor's tier (currentUser.privs === 1).  It contains no identity
-- comparison.  Returns the updated row id ({ id }) when a row matched.
def changeActivationStatus (users : List UserRow) (currentUser : UserRow)
    (userId : Int) (status : Bool) : Option Int × List UserRow :=
  if userId ≠ 0 ∧ currentUser.privs = 1 then
    (if users.any (fun u => u.id = userId) then some userId else none,
     users.map (fun u =>
       if u.id = userId then { u with activated := status } else u))
  else (none, users)

-- The client template's guard: the Deactivate control is rendered only for
-- an administrator viewing an activated account whose route id differs
-- from the admin's own id (String(store.state.user.id) === id, modelled on
-- the numeric ids, whose decimal rendering is injective).
def deactivateControlShown (viewerPrivs viewerId routeId : Int)
    (targetActivated : Bool) : Bool :=
  viewerPrivs = 1 && targetActivated && !(viewerId = routeId)

-- ------------------------------------------------------------------
-- setCommentForString (User.vue server module, lines 962-979)
-- ------------------------------------------------------------------

structure BindParams where
  id : Option Int
  tokens : Option (List Int)
deriving DecidableEq

-- Guarded by `if (commentId && stringTokenIds?.length)`; then two UPDATEs
-- over the targeted rows: array_remove(comments, c) followed by
-- array_append(comments, c).  The Bool reports whether the updates ran.
def setCommentForString (strings : List StringRow) (ps : BindParams) :
    List StringRow × Bool :=
  match ps.id, ps.tokens with
  | some c, some ts =>
    if c ≠ 0 ∧ ts ≠ [] then
      ((strings.map (fun r =>
          if r.id ∈ ts then
            { r with comments := r.comments.filter (fun x => x ≠ c) }
          else r)).map (fun r =>
          if r.id ∈ ts then { r with comments := r.comments ++ [c] }
          else r),
        true)
    else (strings, false)
  | some _, none => (strings, false)
  | none, _ => (strings, false)

-- ------------------------------------------------------------------
-- Theorems
-- ------------------------------------------------------------------

-- The code's tag condition, characterised: when the before-list is
-- duplicate-free it fires exactly when the after-list mentions a tag id
-- absent from the before-list; tag removals alone do not fire it.
lemma tagsChanged_iff (d0 d1 : LogComment) (h : d0.tags.Nodup) :
    tagsChanged d0 d1 = true ↔ ¬ (∀ t ∈ d1.tags, t ∈ d0.tags) := by
  have hset : ((d0.tags ++ d1.tags).dedup).length
      = (d0.tags.toFinset ∪ d1.tags.toFinset).card := by
    rw [← List.card_toFinset, List.toFinset_append]
  have hlen : d0.tags.length = d0.tags.toFinset.card :=
    (List.toFinset_card_of_nodup h).symm
  constructor
  · intro hc hall
    have hsub : d1.tags.toFinset ⊆ d0.tags.toFinset := by
      intro t ht
      exact List.mem_toFinset.mpr (hall t (List.mem_toFinset.mp ht))
    have : d0.tags.toFinset ∪ d1.tags.toFinset = d0.tags.toFinset :=
      Finset.union_eq_left.mpr hsub
    simp only [tagsChanged, hset, hlen, this, decide_eq_true_eq] at hc
    exact hc rfl
  · intro hnall
    simp only [tagsChanged, hset, hlen, decide_eq_true_eq]
    intro heq
    have hsub : d0.tags.toFinset ⊆ d0.tags.toFinset ∪ d1.tags.toFinset :=
      Finset.subset_union_left
    have hu : d0.tags.toFinset = d0.tags.toFinset ∪ d1.tags.toFinset :=
      Finset.eq_of_subset_of_card_le hsub (le_of_eq heq.symm)
    refine hnall (fun t ht => ?_)
    have hmem : t ∈ d0.tags.toFinset ∪ d1.tags.toFinset :=
      Finset.mem_union_right _ (List.mem_toFinset.mpr ht)
    rw [← hu] at hmem
    exact List.mem_toFinset.mp hmem

/-- C5 counterexample: the claim says the tags field is reported changed iff
the tag-id sets differ.  Take before-tags `[1, 2]` and after-tags `[1]`
(everything else identical): the sets differ, yet compareRecords reports no
changed field at all, because `data0.tags.length` equals the size of the set
union.  Pure tag removals are invisible to the differ. -/
theorem C5_tags_set_counterexample :
    compareRecords []
        ⟨some "a", none, none, [1, 2], [], []⟩
        ⟨some "a", none, none, [1], [], []⟩ = .fields [] ∧
      ([1, 2] : List Int).toFinset ≠ ([1] : List Int).toFinset := by
  decide

/-- C5 (amended): for non-creation snapshots whose before-list of tags is
duplicate-free and whose per-text scheme does not itself define a field
rendered as ("tags", "Tags"), the differ reports the tags field as changed
iff the after snapshot mentions a tag id that the before snapshot does not
— order-insensitive, but pure removals are not reported.  (With duplicates
in the before-list the condition fires regardless of the after-list.) -/
theorem C5_tags_membership (scheme : List (String × String))
    (d0 d1 : LogComment) (h0 : jsTruthyTitle d0.title = true)
    (hnd : d0.tags.Nodup) (hs : ("tags", "Tags") ∉ scheme) :
    (∃ l, compareRecords scheme d0 d1 = .fields l ∧ ("tags", "Tags") ∈ l) ↔
      ¬ (∀ t ∈ d1.tags, t ∈ d0.tags) := by
  rw [← tagsChanged_iff d0 d1 hnd]
  simp only [compareRecords, h0, Bool.true_eq_false, if_false]
  constructor
  · rintro ⟨l, hl, hmem⟩
    cases hl
    simp only [List.mem_append, List.mem_filter] at hmem
    rcases hmem with ((((h | h) | h) | h) | h) | h
    · split at h <;> simp_all
    · split at h <;> simp_all
    · split at h <;> simp_all
    · by_cases hc : tagsChanged d0 d1 <;> simp_all
    · split at h <;> simp_all
    · exact absurd h.1 hs
  · intro hc
    refine ⟨_, rfl, ?_⟩
    simp only [List.mem_append, List.mem_filter]
    left; left; right
    simp [hc]

/-- C6 counterexample: the claim says diff(x, x) is empty for every
non-creation snapshot x.  A snapshot whose tags array contains a duplicate
(here `[1, 1]`) refutes it: the length of the list (2) differs from the
size of the set union with itself (1), so compareRecords(x, x) reports the
tags field as changed. -/
theorem C6_diff_refl_counterexample :
    jsTruthyTitle (some "a") = true ∧
      compareRecords [] ⟨some "a", none, none, [1, 1], [], []⟩
          ⟨some "a", none, none, [1, 1], [], []⟩ ≠ .fields [] := by
  decide

/-- C6 (amended): diff(x, x) returns the empty list of changed-field labels,
with no creation marker, for every non-creation snapshot x whose tags list
is duplicate-free; when the tags list has duplicates, diff(x, x) wrongly
reports the tags field. -/
theorem C6_diff_refl (scheme : List (String × String)) (x : LogComment)
    (h0 : jsTruthyTitle x.title = true) (hnd : x.tags.Nodup) :
    compareRecords scheme x x = .fields [] := by
  have htags : tagsChanged x x = false := by
    by_contra hne
    have := (tagsChanged_iff x x hnd).mp (by
      cases h : tagsChanged x x
      · exact absurd h hne
      · rfl)
    exact this (fun t ht => ht)
  simp [compareRecords, h0, htags]

/-- Witness for C5_tags_membership at a concrete input: before-tags [1, 2],
after-tags [1, 3]; 3 is new, so the differ reports tags. -/
theorem C5_tags_membership_witness :
    (∃ l, compareRecords []
        ⟨some "a", none, none, [1, 2], [], []⟩
        ⟨some "a", none, none, [1, 3], [], []⟩ = .fields l ∧
          ("tags", "Tags") ∈ l) :=
  (C5_tags_membership [] ⟨some "a", none, none, [1, 2], [], []⟩
      ⟨some "a", none, none, [1, 3], [], []⟩ (by decide) (by decide)
      (by decide)).mpr (by decide)

/-- Witness for C6_diff_refl at a concrete input. -/
theorem C6_diff_refl_witness :
    compareRecords [("year", "Year")]
        ⟨some "a", some 2, some true, [5, 7], [[1, 0]], [("year", "1999")]⟩
        ⟨some "a", some 2, some true, [5, 7], [[1, 0]], [("year", "1999")]⟩
      = .fields [] :=
  C6_diff_refl [("year", "Year")]
    ⟨some "a", some 2, some true, [5, 7], [[1, 0]], [("year", "1999")]⟩
    (by decide) (by decide)

/-- C1: every call to setComment either leaves the store exactly as it was
and reports a non-success (with in-transaction failures surfacing as the
rolled-back { error } result), or commits the comment row write together
with exactly one paired log entry — same record id, data0 = prior snapshot
(empty object on creation), data1 = new snapshot — in one transaction; a
committed comment mutation is observable iff its paired log entry is. -/
theorem C1_setComment_atomic (db : DB) (userId : Int) (p : CommentParams)
    (oracle : Nat → Bool) :
    ((setComment db userId p oracle).db = db ∧
      (∀ c l, (setComment db userId p oracle).outcome ≠ .ok c l) ∧
      ((setComment db userId p oracle).txnOpened = true →
        (setComment db userId p oracle).outcome = .errorObj)) ∨
    (∃ cid before,
      (setComment db userId p oracle).outcome = .ok cid db.nextLogId ∧
      (setComment db userId p oracle).db.logs = db.logs ++
        [⟨db.nextLogId, db.clock, userId, "comments", cid, before,
          p.snapshot⟩] ∧
      commentWritten db (setComment db userId p oracle).db cid before p ∧
      (setComment db userId p oracle).db.tokens = db.tokens ∧
      (setComment db userId p oracle).db.strings = db.strings ∧
      (setComment db userId p oracle).db.users = db.users) := by
  rcases hp : p.title with _ | t
  · left
    simp [setComment, hp]
  · rcases hid : jsId p.id with _ | i
    · by_cases h0 : oracle 0 = false
      · left; simp [setComment, hp, hid, h0]
      · by_cases h1 : oracle 1 = false ∨ p.text_id = none
        · left; simp only [setComment, hp, hid, h0, if_false, h1, if_true]
          exact ⟨rfl, by intro c l; simp, by intro _; rfl⟩
        · by_cases h2 : oracle 2 = false
          · left
            simp only [setComment, hp, hid, h0, if_false, h1, h2, if_true]
            exact ⟨rfl, by intro c l; simp, by intro _; rfl⟩
          · by_cases h3 : oracle 3 = false
            · left
              simp only [setComment, hp, hid, h0, if_false, h1, h2, h3,
                if_true]
              exact ⟨rfl, by intro c l; simp, by intro _; rfl⟩
            · right
              refine ⟨db.nextCommentId, Snapshot.empty, ?_⟩
              simp only [setComment, hp, hid, h0, if_false, h1, h2, h3]
              refine ⟨rfl, rfl, ⟨t, hp, Or.inl ⟨rfl, rfl, rfl⟩⟩,
                rfl, rfl, rfl⟩
    · by_cases h0 : oracle 0 = false
      · left; simp [setComment, hp, hid, h0]
      · rcases hf : db.comments.find? (fun r => r.id = i) with _ | prev
        · left; simp [setComment, hp, hid, h0, hf]
        · by_cases h1 : oracle 1 = false
          · left; simp [setComment, hp, hid, h0, hf, h1]
          · by_cases h2 : oracle 2 = false ∨ p.text_id = none
            · left
              simp only [setComment, hp, hid, h0, if_false, hf, h1, h2,
                if_true]
              exact ⟨rfl, by intro c l; simp, by intro _; rfl⟩
            · by_cases h3 : oracle 3 = false
              · left
                simp only [setComment, hp, hid, h0, if_false, hf, h1, h2,
                  h3, if_true]
                exact ⟨rfl, by intro c l; simp, by intro _; rfl⟩
              · by_cases h4 : oracle 4 = false
                · left
                  simp only [setComment, hp, hid, h0, if_false, hf, h1,
                    h2, h3, h4, if_true]
                  exact ⟨rfl, by intro c l; simp, by intro _; rfl⟩
                · right
                  refine ⟨i, prev.snapshot, ?_⟩
                  have hprevmem : prev ∈ db.comments :=
                    List.mem_of_find?_eq_some hf
                  have hpred := List.find?_some hf
                  have hprevid : prev.id = i := of_decide_eq_true hpred
                  simp only [setComment, hp, hid, h0, if_false, hf, h1,
                    h2, h3, h4]
                  exact ⟨rfl, rfl,
                    ⟨t, hp, Or.inr ⟨prev, hprevmem, hprevid, rfl, rfl⟩⟩,
                    rfl, rfl, rfl⟩

/-- C7 counterexample: the claim says a missing params.text_id is caught by
a ValidationError before any transaction is opened.  In the code there is
no such check: with title present and text_id absent, setComment opens the
transaction (BEGIN succeeds), the INSERT then fails on the NaN text id, and
the caller gets the generic rolled-back { error } result — not a
pre-transaction validation failure. -/
theorem C7_no_pretxn_validation_counterexample :
    (setComment DB.empty 1
        ⟨none, none, some "Intro", none, none, none, none, none⟩
        (fun _ => true)).txnOpened = true ∧
      (setComment DB.empty 1
          ⟨none, none, some "Intro", none, none, none, none, none⟩
          (fun _ => true)).outcome = .errorObj :=
  ⟨rfl, rfl⟩

/-- C7 (amended): a missing params.title makes setComment throw (a raw
TypeError from params.title.trim(), not a structured ValidationError)
before any statement runs, leaving the store untouched with no transaction
opened; a missing params.text_id is not checked before the transaction —
the call can open a transaction, never succeeds, and always leaves the
store untouched. -/
theorem C7_missing_field_behavior (db : DB) (userId : Int)
    (p : CommentParams) (oracle : Nat → Bool) :
    (p.title = none →
      setComment db userId p oracle = ⟨.thrown, db, false⟩) ∧
    (p.text_id = none →
      (setComment db userId p oracle).db = db ∧
        ∀ c l, (setComment db userId p oracle).outcome ≠ .ok c l) := by
  constructor
  · intro hp
    simp [setComment, hp]
  · intro hx
    rcases hp : p.title with _ | t
    · simp [setComment, hp]
    · rcases hid : jsId p.id with _ | i
      · by_cases h0 : oracle 0 = false
        · simp [setComment, hp, hid, h0]
        · have hcond : oracle 1 = false ∨ p.text_id = none := Or.inr hx
          simp only [setComment, hp, hid, h0, if_false, hcond, if_true]
          exact ⟨rfl, by intro c l; simp⟩
      · by_cases h0 : oracle 0 = false
        · simp [setComment, hp, hid, h0]
        · rcases hf : db.comments.find? (fun r => r.id = i) with _ | prev
          · simp [setComment, hp, hid, h0, hf]
          · by_cases h1 : oracle 1 = false
            · simp [setComment, hp, hid, h0, hf, h1]
            · have hcond : oracle 2 = false ∨ p.text_id = none := Or.inr hx
              simp only [setComment, hp, hid, h0, if_false, hf, h1, hcond,
                if_true]
              exact ⟨rfl, by intro c l; simp⟩

/-- Witness for C7_missing_field_behavior: a call with no title throws and
changes nothing; a call with no text_id leaves the store unchanged. -/
theorem C7_missing_field_behavior_witness :
    setComment DB.empty 1 ⟨none, some 1, none, none, none, none, none, none⟩
        (fun _ => true) = ⟨.thrown, DB.empty, false⟩ ∧
      (setComment DB.empty 1
          ⟨none, none, some "Intro", none, none, none, none, none⟩
          (fun _ => true)).db = DB.empty :=
  ⟨(C7_missing_field_behavior DB.empty 1
      ⟨none, some 1, none, none, none, none, none, none⟩
      (fun _ => true)).1 rfl,
   ((C7_missing_field_behavior DB.empty 1
      ⟨none, none, some "Intro", none, none, none, none, none⟩
      (fun _ => true)).2 rfl).1⟩

lemma published_partition (m : List CommentRow)
    (h : ∀ r ∈ m, r.published ≠ none) :
    m.length = (m.filter (fun r => r.published = some true)).length +
      (m.filter (fun r => r.published = some false)).length := by
  induction m with
  | nil => simp
  | cons r rest ih =>
    have hr : r.published ≠ none := h r (List.mem_cons_self r rest)
    have hrest : ∀ q ∈ rest, q.published ≠ none :=
      fun q hq => h q (List.mem_cons_of_mem r hq)
    rcases hb : r.published with _ | b
    · exact absurd hb hr
    · cases b <;> simp [List.filter_cons, hb, ih hrest] <;> omega

/-- C9 counterexample: total = ready + draft fails on a reachable state.
Starting from the empty store, a successful setComment whose params omit
the published flag inserts a comment row with published NULL (the pg driver
maps undefined to NULL and the column has no NOT NULL constraint); for that
text the counts are total 1, ready 0, draft 0, and 1 differs from 0 + 0. -/
theorem C9_partition_counterexample :
    completionCounts
        (setComment DB.empty 1
          ⟨none, some 1, some "Intro", none, some 1, none, none, none⟩
          (fun _ => true)).db 1 = (1, 0, 0) ∧ (1 : Nat) ≠ 0 + 0 := by
  constructor
  · rfl
  · decide

/-- C9 (amended): for every text id, the completion counts satisfy
total = ready + draft on every state in which no comment of that text has a
NULL published flag; a NULL-published comment (reachable via setComment
with the flag omitted) counts toward total but toward neither ready nor
draft. -/
theorem C9_completion_partition (db : DB) (t : Int)
    (h : ∀ r ∈ db.comments, r.text_id = some t → r.published ≠ none) :
    (completionCounts db t).1 =
      (completionCounts db t).2.1 + (completionCounts db t).2.2 := by
  have hm : ∀ r ∈ db.comments.filter (fun r => r.text_id = some t),
      r.published ≠ none := by
    intro r hr
    rw [List.mem_filter] at hr
    exact h r hr.1 (of_decide_eq_true hr.2)
  exact published_partition _ hm

/-- Witness for C9_completion_partition on a concrete two-comment store. -/
theorem C9_completion_partition_witness :
    (completionCounts
        ⟨[⟨1, some 1, "a", some true, none, [], [], none⟩,
          ⟨2, some 1, "b", some false, none, [], [], none⟩],
         [], [], [], [], 3, 1, 1, 1, 0⟩ 1).1 =
      (completionCounts
        ⟨[⟨1, some 1, "a", some true, none, [], [], none⟩,
          ⟨2, some 1, "b", some false, none, [], [], none⟩],
         [], [], [], [], 3, 1, 1, 1, 0⟩ 1).2.1 +
      (completionCounts
        ⟨[⟨1, some 1, "a", some true, none, [], [], none⟩,
          ⟨2, some 1, "b", some false, none, [], [], none⟩],
         [], [], [], [], 3, 1, 1, 1, 0⟩ 1).2.2 :=
  C9_completion_partition _ 1 (by decide)

lemma runBatch_some_state (textId : Int) (langId : String)
    (oracle : Nat → Bool) :
    ∀ (batch : List BatchItem) (db : DB) (k : Nat) (db1 : DB) (k' : Nat),
      runBatch db textId batch langId oracle k = some (db1, k') →
      db1 = ingestAll db textId batch langId := by
  intro batch
  induction batch with
  | nil =>
    intro db k db1 k' h
    simp only [runBatch, Option.some.injEq, Prod.mk.injEq] at h
    simp [ingestAll, ← h.1]
  | cons it rest ih =>
    intro db k db1 k' h
    by_cases hk : oracle k = false
    · simp [runBatch, hk] at h
    · by_cases hk1 : oracle (k + 1) = false
      · simp [runBatch, hk, hk1] at h
      · simp only [runBatch, hk, if_false, hk1] at h
        have := ih _ _ _ _ h
        simpa [ingestAll] using this

/-- C2: ingestion is all-or-nothing.  Either some statement of the batch
(including the last insert, the backfill or COMMIT itself) fails, the
transaction is rolled back so that the store is exactly the initial one —
zero strings rows and zero tokens rows attributable to the batch remain —
and undefined (a failure signal, not an elapsed-seconds value) is returned;
or every statement succeeds and the result is the elapsed time with the
fully-ingested, backfilled state. -/
theorem C2_ingest_all_or_nothing (db : DB) (textId : Int)
    (batch : List BatchItem) (langId : String) (oracle : Nat → Bool)
    (secs : Nat) :
    ((insertBatchIntoStrings db textId batch langId oracle secs).1 = none ∧
      (insertBatchIntoStrings db textId batch langId oracle secs).2 = db) ∨
    ((insertBatchIntoStrings db textId batch langId oracle secs).1 =
        some secs ∧
      (insertBatchIntoStrings db textId batch langId oracle secs).2 =
        backfill (ingestAll db textId batch langId) langId) := by
  unfold insertBatchIntoStrings
  by_cases h0 : oracle 0 = false
  · left; simp [h0]
  · rcases hr : runBatch db textId batch langId oracle 1 with _ | ⟨db1, k⟩
    · left; simp [h0, hr]
    · by_cases hk : oracle k = false
      · left; simp [h0, hr, hk]
      · by_cases hk1 : oracle (k + 1) = false
        · left; simp [h0, hr, hk, hk1]
        · right
          have hstate := runBatch_some_state textId langId oracle batch
            db 1 db1 k hr
          simp [h0, hr, hk, hk1, hstate]

lemma tokenInsert_tokens_of_present (db : DB) (it : BatchItem)
    (langId : String)
    (hc : db.tokens.any
      (fun tk => tk.token = it.repr ∧ tk.lang = langId) = true) :
    (tokenInsert db it langId).tokens = db.tokens := by
  unfold tokenInsert
  rw [hc]
  simp

lemma tokenInsert_tokens_of_absent (db : DB) (it : BatchItem)
    (langId : String)
    (hc : db.tokens.any
      (fun tk => tk.token = it.repr ∧ tk.lang = langId) = false) :
    (tokenInsert db it langId).tokens =
      db.tokens ++ [⟨db.nextTokenId, it.repr, langId, it.meta⟩] := by
  unfold tokenInsert
  rw [hc]
  simp

lemma ingestAll_tokens_stable (textId : Int) (langId : String) (w : String)
    (row : TokenRow) :
    ∀ (batch : List BatchItem) (db : DB),
      db.tokens.filter (fun tk => tk.token = w ∧ tk.lang = langId) =
        [row] →
      (ingestAll db textId batch langId).tokens.filter
          (fun tk => tk.token = w ∧ tk.lang = langId) = [row] := by
  intro batch
  induction batch with
  | nil => intro db h; simpa [ingestAll] using h
  | cons it rest ih =>
    intro db h
    have hrow : row ∈ db.tokens ∧ (row.token = w ∧ row.lang = langId) := by
      have hm : row ∈ db.tokens.filter
          (fun tk => tk.token = w ∧ tk.lang = langId) := by
        rw [h]; exact List.mem_singleton.mpr rfl
      rw [List.mem_filter] at hm
      exact ⟨hm.1, of_decide_eq_true hm.2⟩
    have hstep : (stringInsert (tokenInsert db it langId) textId it).tokens.filter
        (fun tk => tk.token = w ∧ tk.lang = langId) = [row] := by
      show (tokenInsert db it langId).tokens.filter _ = [row]
      cases hc : db.tokens.any
          (fun tk => tk.token = it.repr ∧ tk.lang = langId) with
      | true => rw [tokenInsert_tokens_of_present db it langId hc]; exact h
      | false =>
        by_cases hw : it.repr = w
        · exfalso
          rw [List.any_eq_false] at hc
          exact hc row hrow.1 (decide_eq_true
            (by rw [hw]; exact hrow.2))
        · rw [tokenInsert_tokens_of_absent db it langId hc,
            List.filter_append, h]
          have hnew : (List.filter
              (fun tk => decide (tk.token = w ∧ tk.lang = langId))
              [(⟨db.nextTokenId, it.repr, langId, it.meta⟩ : TokenRow)]) =
              [] := by
            simp [hw]
          rw [hnew, List.append_nil]
    have := ih _ hstep
    simpa [ingestAll] using this

lemma ingestAll_tokens_first (textId : Int) (langId : String) (w : String) :
    ∀ (batch : List BatchItem) (db : DB) (it0 : BatchItem),
      (∀ tk ∈ db.tokens, ¬(tk.token = w ∧ tk.lang = langId)) →
      batch.find? (fun it => it.repr = w) = some it0 →
      ∃ tid, (ingestAll db textId batch langId).tokens.filter
          (fun tk => tk.token = w ∧ tk.lang = langId) =
        [⟨tid, w, langId, it0.meta⟩] := by
  intro batch
  induction batch with
  | nil => intro db it0 _ hfind; simp [List.find?] at hfind
  | cons it rest ih =>
    intro db it0 hno hfind
    by_cases hw : it.repr = w
    · have hit0 : it0 = it := by
        simp only [List.find?, hw, decide_True, Option.some.injEq] at hfind
        exact hfind.symm
      have hc : db.tokens.any
          (fun tk => tk.token = it.repr ∧ tk.lang = langId) = false := by
        rw [List.any_eq_false]
        intro tk htk
        simp only [decide_eq_true_eq, hw]
        exact hno tk htk
      have hfilter : (stringInsert (tokenInsert db it langId) textId
          it).tokens.filter (fun tk => tk.token = w ∧ tk.lang = langId) =
          [⟨db.nextTokenId, it.repr, langId, it.meta⟩] := by
        show (tokenInsert db it langId).tokens.filter _ = _
        rw [tokenInsert_tokens_of_absent db it langId hc,
          List.filter_append]
        have h1 : db.tokens.filter
            (fun tk => decide (tk.token = w ∧ tk.lang = langId)) = [] := by
          rw [List.filter_eq_nil_iff]
          intro tk htk
          simp only [decide_eq_true_eq]
          exact hno tk htk
        have h2 : (List.filter
            (fun tk => decide (tk.token = w ∧ tk.lang = langId))
            [(⟨db.nextTokenId, it.repr, langId, it.meta⟩ : TokenRow)]) =
            [⟨db.nextTokenId, it.repr, langId, it.meta⟩] := by
          simp [hw]
        rw [h1, h2, List.nil_append]
      have := ingestAll_tokens_stable textId langId w
        ⟨db.nextTokenId, it.repr, langId, it.meta⟩ rest _ hfilter
      refine ⟨db.nextTokenId, ?_⟩
      rw [hit0]
      simpa [ingestAll, hw] using this
    · have hfind' : rest.find? (fun it => it.repr = w) = some it0 := by
        simpa only [List.find?, hw, decide_False] using hfind
      have hno' : ∀ tk ∈ (stringInsert (tokenInsert db it langId) textId
          it).tokens, ¬(tk.token = w ∧ tk.lang = langId) := by
        intro tk htk
        have htk' : tk ∈ (tokenInsert db it langId).tokens := htk
        cases hc : db.tokens.any
            (fun q => q.token = it.repr ∧ q.lang = langId) with
        | true =>
          rw [tokenInsert_tokens_of_present db it langId hc] at htk'
          exact hno tk htk'
        | false =>
          rw [tokenInsert_tokens_of_absent db it langId hc] at htk'
          simp only [List.mem_append, List.mem_singleton] at htk'
          rcases htk' with hold | hnew
          · exact hno tk hold
          · rw [hnew]
            intro hkey
            exact hw hkey.1
      have := ih _ it0 hno' hfind'
      simpa [ingestAll] using this

/-- C4: within one batch (one language), ingesting two records with the
same surface form yields exactly one tokens row for that (form, language)
pair — assuming the pair was not in the table before the batch — and that
row carries the metadata of the first occurrence in the batch; later
duplicates hit ON CONFLICT DO NOTHING and do not overwrite it. -/
theorem C4_token_dedup_first_wins (db : DB) (textId : Int)
    (batch : List BatchItem) (langId : String) (secs : Nat) (w : String)
    (it0 : BatchItem)
    (hno : ∀ tk ∈ db.tokens, ¬(tk.token = w ∧ tk.lang = langId))
    (hdup : 2 ≤ (batch.filter (fun it => it.repr = w)).length)
    (hfst : batch.find? (fun it => it.repr = w) = some it0) :
    ∃ tid,
      (insertBatchIntoStrings db textId batch langId (fun _ => true)
          secs).2.tokens.filter
        (fun tk => tk.token = w ∧ tk.lang = langId) =
      [⟨tid, w, langId, it0.meta⟩] := by
  have hrun : ∀ (b : List BatchItem) (d : DB) (k : Nat),
      runBatch d textId b langId (fun _ => true) k =
        some (ingestAll d textId b langId, k + 2 * b.length) := by
    intro b
    induction b with
    | nil => intro d k; simp [runBatch, ingestAll]
    | cons x xs ihb =>
      intro d k
      simp only [runBatch, Bool.true_eq_false, if_false, ihb, ingestAll,
        List.foldl_cons, List.length_cons]
      refine congrArg _ (congrArg _ ?_)
      omega
  obtain ⟨tid, htid⟩ :=
    ingestAll_tokens_first textId langId w batch db it0 hno hfst
  refine ⟨tid, ?_⟩
  simp only [insertBatchIntoStrings, Bool.true_eq_false, if_false,
    hrun batch db 1]
  exact htid

/-- Witness for C4_token_dedup_first_wins: the batch ingests "cat" twice
with different metadata; one tokens row remains, with the first metadata. -/
theorem C4_token_dedup_first_wins_witness :
    2 ≤ (([⟨1, 1, "cat", "cat", some "m1"⟩,
           ⟨2, 1, "cat", "cat", some "m2"⟩] :
          List BatchItem).filter (fun it => it.repr = "cat")).length ∧
    ∃ tid,
      (insertBatchIntoStrings DB.empty 1
          [⟨1, 1, "cat", "cat", some "m1"⟩, ⟨2, 1, "cat", "cat", some "m2"⟩]
          "en" (fun _ => true) 3).2.tokens.filter
        (fun tk => tk.token = "cat" ∧ tk.lang = "en") =
      [⟨tid, "cat", "en", some "m1"⟩] :=
  ⟨by decide,
   C4_token_dedup_first_wins DB.empty 1
     [⟨1, 1, "cat", "cat", some "m1"⟩, ⟨2, 1, "cat", "cat", some "m2"⟩]
     "en" 3 "cat" ⟨1, 1, "cat", "cat", some "m1"⟩
     (by intro tk htk; simp [DB.empty] at htk) (by decide) (by decide)⟩

lemma logDescLe_trans (a b c : LogRow) (hab : logDescLe a b = true)
    (hbc : logDescLe b c = true) : logDescLe a c = true := by
  simp only [logDescLe, Bool.or_eq_true, Bool.and_eq_true,
    decide_eq_true_eq] at *
  omega

lemma logDescLe_total (a b : LogRow) :
    (logDescLe a b || logDescLe b a) = true := by
  simp only [logDescLe, Bool.or_eq_true, Bool.and_eq_true,
    decide_eq_true_eq]
  omega

/-- C3: log pagination.  For any filter (nonzero text id, optional comment
id) with N matching log rows, requesting page k (offset (k-1)*P, limit P,
with page size P > 0) returns exactly min(P, N - (k-1)*P) rows, the
returned count is N regardless of the page requested, and — given that log
ids are unique, as the primary key guarantees — the returned rows are
strictly descending by creation time with ties broken by descending id. -/
theorem C3_logs_pagination (db : DB) (t : Int) (cmt : Option Int)
    (P k : Nat) (hP : 0 < P) (ht : t ≠ 0) (hk : 1 ≤ k)
    (hids : (db.logs.map (fun l => l.id)).Nodup) :
    (getLogs db ⟨some ((k - 1) * P), some P, some t, cmt⟩).1.length =
      min P ((db.logs.filter (logMatches t
        (match cmt with
         | some c => if c = 0 then none else some c
         | none => none))).length - (k - 1) * P) ∧
    (getLogs db ⟨some ((k - 1) * P), some P, some t, cmt⟩).2 =
      (db.logs.filter (logMatches t
        (match cmt with
         | some c => if c = 0 then none else some c
         | none => none))).length ∧
    (getLogs db ⟨some ((k - 1) * P), some P, some t, cmt⟩).1.Pairwise
      logAfter := by
  have hoff : jsOrNat (some ((k - 1) * P)) 0 = (k - 1) * P := by
    by_cases h : (k - 1) * P = 0 <;> simp [jsOrNat, h]
  have hlim : jsOrNat (some P) 50 = P := by
    have : P ≠ 0 := Nat.pos_iff_ne_zero.mp hP
    simp [jsOrNat, this]
  have htid : jsOrInt (some t) 1 = t := by simp [jsOrInt, ht]
  set cid : Option Int := (match cmt with
    | some c => if c = 0 then none else some c
    | none => none) with hcid
  set matched := db.logs.filter (logMatches t cid) with hmatched
  have hgl : getLogs db ⟨some ((k - 1) * P), some P, some t, cmt⟩ =
      (((matched.mergeSort logDescLe).drop ((k - 1) * P)).take P,
        matched.length) := by
    simp only [getLogs, hoff, hlim, htid, ← hcid, ← hmatched]
  refine ⟨?_, ?_, ?_⟩
  · rw [hgl]
    simp only [List.length_take, List.length_drop, List.length_mergeSort]
  · rw [hgl]
  · rw [hgl]
    have hsorted : (matched.mergeSort logDescLe).Pairwise
        (fun a b => logDescLe a b = true) :=
      List.sorted_mergeSort logDescLe_trans logDescLe_total matched
    have hsubids : (matched.map (fun l => l.id)).Nodup := by
      refine List.Nodup.sublist ?_ hids
      exact List.Sublist.map _ (List.filter_sublist _)
    have hperm : ((matched.mergeSort logDescLe).map (fun l => l.id)).Perm
        (matched.map (fun l => l.id)) :=
      (List.mergeSort_perm matched logDescLe).map _
    have hsortids : ((matched.mergeSort logDescLe).map
        (fun l => l.id)).Nodup := hperm.symm.nodup hsubids
    have hpairne : (matched.mergeSort logDescLe).Pairwise
        (fun a b => a.id ≠ b.id) := List.pairwise_map.mp hsortids
    have hstrict : (matched.mergeSort logDescLe).Pairwise logAfter := by
      refine (hsorted.and hpairne).imp ?_
      intro a b hab
      obtain ⟨hle, hne⟩ := hab
      simp only [logDescLe, Bool.or_eq_true, Bool.and_eq_true,
        decide_eq_true_eq] at hle
      unfold logAfter
      omega
    refine List.Pairwise.sublist ?_ hstrict
    exact (List.take_sublist _ _).trans (List.drop_sublist _ _)

/-- Witness for C3_logs_pagination: three matching log rows (two sharing a
timestamp) and one row of another text; page 2 with page size 2 returns
one row and count 3. -/
theorem C3_logs_pagination_witness :
    (getLogs
        ⟨[], [⟨1, 10, 1, "comments", 1, Snapshot.empty,
               ⟨some 1, some "a", none, none, none, none, none⟩⟩,
              ⟨2, 20, 1, "comments", 1,
               ⟨some 1, some "a", none, none, none, none, none⟩,
               ⟨some 1, some "b", none, none, none, none, none⟩⟩,
              ⟨3, 20, 1, "comments", 2, Snapshot.empty,
               ⟨some 1, some "c", none, none, none, none, none⟩⟩,
              ⟨4, 30, 1, "comments", 9, Snapshot.empty,
               ⟨some 2, some "d", none, none, none, none, none⟩⟩],
          [], [], [], 1, 5, 1, 1, 0⟩
        ⟨some 2, some 2, some 1, none⟩).1.length = min 2 (3 - 2) :=
  (C3_logs_pagination
    ⟨[], [⟨1, 10, 1, "comments", 1, Snapshot.empty,
           ⟨some 1, some "a", none, none, none, none, none⟩⟩,
          ⟨2, 20, 1, "comments", 1,
           ⟨some 1, some "a", none, none, none, none, none⟩,
           ⟨some 1, some "b", none, none, none, none, none⟩⟩,
          ⟨3, 20, 1, "comments", 2, Snapshot.empty,
           ⟨some 1, some "c", none, none, none, none, none⟩⟩,
          ⟨4, 30, 1, "comments", 9, Snapshot.empty,
           ⟨some 2, some "d", none, none, none, none, none⟩⟩],
      [], [], [], 1, 5, 1, 1, 0⟩
    1 none 2 2 (by decide) (by decide) (by decide) (by decide)).1

/-- C8 counterexample: the claim says self-deactivation is rejected by the
deactivation operation itself via an identity comparison.  A tier-1 user
with id 7 requesting deactivation of user id 7 succeeds at the operation:
it returns the updated row id and the stored row is now deactivated — the
only identity comparison lives in the client template. -/
theorem C8_self_deactivation_counterexample :
    changeActivationStatus [⟨7, 1, true⟩] ⟨7, 1, true⟩ 7 false =
      (some 7, [⟨7, 1, false⟩]) := by
  decide

/-- C8 (amended): the server-side deactivation operation checks only that
the target id is truthy and that the actor is tier 1 — an administrator's
request to deactivate their own account succeeds and leaves the account
deactivated; the identity comparison exists only in the client UI, which
hides the Deactivate control whenever the viewed id equals the current
user's id. -/
theorem C8_self_deactivation_server_allows (users : List UserRow)
    (u : UserRow) (hadmin : u.privs = 1) (hid : u.id ≠ 0)
    (hmem : u ∈ users) :
    (changeActivationStatus users u u.id false).1 = some u.id ∧
    (∀ r ∈ (changeActivationStatus users u u.id false).2,
      r.id = u.id → r.activated = false) ∧
    (∀ pv vid act, deactivateControlShown pv vid vid act = false) := by
  have hcond : u.id ≠ 0 ∧ u.privs = 1 := ⟨hid, hadmin⟩
  have hany : users.any (fun q => q.id = u.id) = true :=
    List.any_eq_true.mpr ⟨u, hmem, decide_eq_true rfl⟩
  refine ⟨?_, ?_, ?_⟩
  · simp only [changeActivationStatus, if_pos hcond, hany, if_true]
  · intro r hr hrid
    simp only [changeActivationStatus, if_pos hcond] at hr
    obtain ⟨q, _, hq⟩ := List.mem_map.mp hr
    by_cases h : q.id = u.id
    · rw [← hq]
      simp [h]
    · rw [← hq] at hrid
      simp [h] at hrid
  · intro pv vid act
    simp [deactivateControlShown]

/-- Witness for C8_self_deactivation_server_allows: admin id 7 deactivates
their own account. -/
theorem C8_self_deactivation_server_allows_witness :
    (changeActivationStatus [⟨7, 1, true⟩] ⟨7, 1, true⟩ (7 : Int)
        false).1 = some 7 :=
  (C8_self_deactivation_server_allows [⟨7, 1, true⟩] ⟨7, 1, true⟩
    (by decide) (by decide) (by decide)).1

lemma setCommentForString_run (strings : List StringRow) (c : Int)
    (ts : List Int) (hc : c ≠ 0) (hts : ts ≠ []) :
    setCommentForString strings ⟨some c, some ts⟩ =
      (strings.map (fun r =>
        if r.id ∈ ts then
          { r with comments := r.comments.filter (fun x => x ≠ c) ++ [c] }
        else r), true) := by
  simp only [setCommentForString]
  rw [if_pos ⟨hc, hts⟩]
  simp only [Prod.mk.injEq, and_true]
  rw [List.map_map]
  refine List.map_congr_left ?_
  intro r _
  by_cases h : r.id ∈ ts
  · simp [Function.comp, h]
  · simp [Function.comp, h]

/-- C10: after a successful setCommentForString(user, {id, tokens}) call,
every targeted strings row's comments array contains the comment id
exactly once (array_remove runs before array_append), and the whole
operation is idempotent: repeating the same call leaves the table
unchanged — duplicate bindings are never created. -/
theorem C10_bind_exactly_once (strings : List StringRow) (c : Int)
    (ts : List Int) (hc : c ≠ 0) (hts : ts ≠ []) :
    (∀ r ∈ (setCommentForString strings ⟨some c, some ts⟩).1,
      r.id ∈ ts → r.comments.count c = 1) ∧
    setCommentForString (setCommentForString strings ⟨some c, some ts⟩).1
        ⟨some c, some ts⟩ =
      ((setCommentForString strings ⟨some c, some ts⟩).1, true) := by
  constructor
  · intro r hr hrid
    rw [setCommentForString_run strings c ts hc hts] at hr
    obtain ⟨q, _, hq⟩ := List.mem_map.mp hr
    by_cases h : q.id ∈ ts
    · have hcm : r.comments = q.comments.filter (fun x => x ≠ c) ++ [c] := by
        rw [← hq]; simp [h]
      rw [hcm, List.count_append]
      have h0 : (q.comments.filter (fun x => x ≠ c)).count c = 0 := by
        rw [List.count_eq_zero]
        intro hmem
        rw [List.mem_filter] at hmem
        exact (of_decide_eq_true hmem.2) rfl
      rw [h0]
      simp
    · rw [← hq] at hrid
      simp only [h, if_false] at hrid
  · rw [setCommentForString_run strings c ts hc hts,
      setCommentForString_run _ c ts hc hts]
    simp only [Prod.mk.injEq, and_true]
    rw [List.map_map]
    refine List.map_congr_left ?_
    intro r _
    by_cases h : r.id ∈ ts
    · have hfilter : ((r.comments.filter (fun x => x ≠ c) ++
          [c]).filter (fun x => x ≠ c)) =
          r.comments.filter (fun x => x ≠ c) := by
        rw [List.filter_append, List.filter_filter]
        have h1 : (List.filter (fun x => decide (x ≠ c) && decide (x ≠ c))
            r.comments) = r.comments.filter (fun x => x ≠ c) := by
          refine List.filter_congr ?_
          intro x _
          cases hdx : decide (x ≠ c) <;> simp [hdx]
        have h2 : List.filter (fun x => x ≠ c) [c] = [] := by simp
        rw [h1, h2, List.append_nil]
      simp only [Function.comp, h, if_true]
      simp [h, hfilter]
    · simp [Function.comp, h]

/-- Witness for C10_bind_exactly_once: binding comment 5 to rows 1 and 2
(row 1 already listed it twice) is idempotent: the repeated call returns
the same table. -/
theorem C10_bind_exactly_once_witness :
    setCommentForString
        (setCommentForString
          [⟨1, 1, 0, 0, "a", "a", none, [5, 5]⟩,
           ⟨2, 1, 0, 0, "b", "b", none, []⟩]
          ⟨some 5, some [1, 2]⟩).1 ⟨some 5, some [1, 2]⟩ =
      ((setCommentForString
          [⟨1, 1, 0, 0, "a", "a", none, [5, 5]⟩,
           ⟨2, 1, 0, 0, "b", "b", none, []⟩]
          ⟨some 5, some [1, 2]⟩).1, true) :=
  (C10_bind_exactly_once
    [⟨1, 1, 0, 0, "a", "a", none, [5, 5]⟩,
     ⟨2, 1, 0, 0, "b", "b", none, []⟩]
    5 [1, 2] (by decide) (by decide)).2

end Supercat
